import Mathlib

/-!
# NaWinie recipe service — formal model

A shallow embedding of the recipe-catalog core of the NaWinie backend
(`src/backend`): the rating aggregator, the ingredient-match ranker, the
recipe query engine, and the sliding-window rate limiter, together with
theorems settling the specification claims about them.

Modelling conventions:
* opaque ids (UUIDs in the source) are `Nat`;
* SQL floats are exact rationals `ℚ`; Python `round(x, 2)` is `round2`
  (tie-breaking of the rounding is immaterial to every claim proved here);
* the relational store is a record of lists of rows; a committed
  transaction returns the next store value;
* the session is created with `autoflush=False` (`database.py` line 28),
  so a query issued after `session.add` does **not** see the pending row —
  the embedding of `rate_recipe` therefore reads the pre-insert rows, as
  the source does.
-/

namespace NaWinie

/-- Complexity levels (`src/backend/models/recipe.py`, `ComplexityLevel`). -/
inductive ComplexityLevel where
  | easy
  | medium
  | hard
deriving DecidableEq, Repr

/-- A row of the `recipes` table (`src/backend/models/recipe.py`, `Recipe`). -/
structure Recipe where
  id : Nat
  name : String
  preparation_time_minutes : Nat
  complexity_level : ComplexityLevel
  author_id : Nat
  average_rating : ℚ
  total_votes : Nat
  created_at : Int
  updated_at : Int
deriving DecidableEq, Repr

/-- A row of `recipe_ingredients` (`src/backend/models/recipe.py`,
`RecipeIngredient`).  There is no uniqueness constraint on the pair
`(recipe_id, ingredient_id)` in the source model — only the surrogate `id`
is a primary key — so duplicate associations are representable. -/
structure RecipeIngredient where
  id : Nat
  recipe_id : Nat
  ingredient_id : Nat
  amount : ℚ
  is_optional : String
deriving DecidableEq, Repr

/-- A row of `recipe_ratings` (`src/backend/models/recipe.py`, `RecipeRating`). -/
structure RecipeRating where
  id : Nat
  user_id : Nat
  recipe_id : Nat
  rating : Int
deriving DecidableEq, Repr

/-- A row of `ingredients` (`src/backend/models/ingredient.py`). -/
structure Ingredient where
  id : Nat
  name : String
  unit_type : String
deriving DecidableEq, Repr

/-- The relational store consulted by the service layer. -/
structure DB where
  recipes : List Recipe
  recipe_ingredients : List RecipeIngredient
  recipe_ratings : List RecipeRating
  ingredients : List Ingredient
deriving DecidableEq, Repr

instance {ε α : Type} [DecidableEq ε] [DecidableEq α] :
    DecidableEq (Except ε α)
  | .error a, .error b =>
    if h : a = b then .isTrue (by rw [h])
    else .isFalse (by intro hc; cases hc; exact h rfl)
  | .error _, .ok _ => .isFalse (by intro h; cases h)
  | .ok _, .error _ => .isFalse (by intro h; cases h)
  | .ok a, .ok b =>
    if h : a = b then .isTrue (by rw [h])
    else .isFalse (by intro hc; cases hc; exact h rfl)

/-- `RatingUpdateResponse` (`src/backend/models/responses.py`). -/
structure RatingUpdateResponse where
  average_rating : ℚ
  total_votes : Nat
deriving DecidableEq, Repr

/-- Python `round(x, 2)`: round to two decimal places. -/
def round2 (q : ℚ) : ℚ := (round (q * 100) : ℚ) / 100

/-- Outcome of `RecipeService.rate_recipe`
(`src/backend/services/recipe_service.py` lines 309–365): `none` return
(recipe missing), the `ValueError` raised for a duplicate vote, or the
successful response. -/
inductive RateOutcome where
  | notFound
  | conflict
  | success (resp : RatingUpdateResponse)
deriving DecidableEq, Repr

/-- `RecipeService.rate_recipe` (`src/backend/services/recipe_service.py`
lines 309–365).  Returns the outcome together with the store state after
the call (unchanged unless the transaction committed).  The rows visible
to the average recomputation are the pre-insert rows because the session
has `autoflush=False`; the source compensates with `+ 1` / `+ rating`. -/
def rateRecipe (db : DB) (recipe_id : Nat) (rating : Int) (user_id : Nat) :
    RateOutcome × DB :=
  match db.recipes.find? (fun r => r.id == recipe_id) with
  | none => (.notFound, db)
  | some _ =>
    if db.recipe_ratings.any
        (fun rr => rr.recipe_id == recipe_id && rr.user_id == user_id) then
      (.conflict, db)
    else
      let ratings := db.recipe_ratings.filter (fun rr => rr.recipe_id == recipe_id)
      let total_ratings : Nat := ratings.length + 1
      let sum_ratings : Int := (ratings.map (fun rr => rr.rating)).sum + rating
      let new_average : ℚ := (sum_ratings : ℚ) / (total_ratings : ℚ)
      let stored : ℚ := round2 new_average
      let new_row : RecipeRating :=
        { id := db.recipe_ratings.length, user_id := user_id,
          recipe_id := recipe_id, rating := rating }
      let db2 : DB :=
        { db with
          recipe_ratings := db.recipe_ratings ++ [new_row],
          recipes := db.recipes.map (fun r =>
            if r.id == recipe_id then
              { r with average_rating := stored, total_votes := total_ratings }
            else r) }
      (.success { average_rating := stored, total_votes := total_ratings }, db2)

/-- All persisted rating rows of one recipe. -/
def ratingsFor (db : DB) (recipe_id : Nat) : List RecipeRating :=
  db.recipe_ratings.filter (fun rr => rr.recipe_id == recipe_id)

/-- The spec's "arithmetic mean of the rating values" of a set of rows
(spec §4.1); stated from the spec's words for comparison with the code. -/
def specMean (rows : List RecipeRating) : ℚ :=
  ((rows.map (fun rr => rr.rating)).sum : ℚ) / (rows.length : ℚ)

/-- Transport-level error classes produced by the API layer
(`src/backend/routers/recipes.py`): 422 body/query validation,
400 bad request, 404 not found, 409 conflict. -/
inductive ApiError where
  | validation
  | badRequest
  | notFound
  | conflict
deriving DecidableEq, Repr

/-- `RateRecipeRequest` field bound (`src/backend/models/requests.py`
lines 103–104): `rating: int = Field(..., ge=1, le=5)`. -/
def validRating (rating : Int) : Bool :=
  decide (1 ≤ rating) && decide (rating ≤ 5)

/-- The `POST /recipes/{id}/rate` pipeline: FastAPI validates the request
body against `RateRecipeRequest` before the handler runs, so an
out-of-range rating is rejected without any store access; otherwise the
handler calls `rate_recipe` and maps its outcome to transport errors
(`src/backend/routers/recipes.py` lines 935–974). -/
def rateEndpoint (db : DB) (recipe_id : Nat) (rating : Int) (user_id : Nat) :
    Except ApiError RatingUpdateResponse × DB :=
  if validRating rating then
    match rateRecipe db recipe_id rating user_id with
    | (.notFound, db2) => (.error .notFound, db2)
    | (.conflict, db2) => (.error .conflict, db2)
    | (.success resp, db2) => (.ok resp, db2)
  else
    (.error .validation, db)

/-- Concrete store used by witnesses: one unrated recipe, one ingredient. -/
def dbW : DB :=
  { recipes := [{ id := 1, name := "r", preparation_time_minutes := 10,
                  complexity_level := .easy, author_id := 2,
                  average_rating := 0, total_votes := 0,
                  created_at := 0, updated_at := 0 }],
    recipe_ingredients := [],
    recipe_ratings := [],
    ingredients := [{ id := 1, name := "x", unit_type := "g" }] }

/-- `SortField` (`src/backend/models/requests.py` lines 47–51). -/
inductive SortField where
  | name
  | rating
  | prep_time
  | created_at
deriving DecidableEq, Repr

/-- `SortOrder` (`src/backend/models/requests.py` lines 53–55). -/
inductive SortOrder where
  | asc
  | desc
deriving DecidableEq, Repr

/-- `RecipeListQuery` (`src/backend/models/requests.py` lines 67–73);
`sortBy` and `sortOrder` are `Optional` in the source. -/
structure RecipeListQuery where
  page : Nat
  limit : Nat
  complexity : Option ComplexityLevel
  authorId : Option Nat
  sortBy : Option SortField
  sortOrder : Option SortOrder
deriving DecidableEq, Repr

/-- `RecipeListItemDto` (`src/backend/models/responses.py` lines 95–105). -/
structure RecipeListItemDto where
  id : Nat
  name : String
  preparation_time_minutes : Nat
  complexity_level : ComplexityLevel
  author_id : Nat
  average_rating : ℚ
  total_votes : Nat
  created_at : Int
  updated_at : Int
deriving DecidableEq, Repr

/-- `PaginationInfo` (`src/backend/models/responses.py` lines 19–24). -/
structure PaginationInfo where
  page : Nat
  limit : Nat
  total_items : Nat
  total_pages : Nat
deriving DecidableEq, Repr

/-- `RecipeListResponse` (`src/backend/models/responses.py` lines 121–124). -/
structure RecipeListResponse where
  data : List RecipeListItemDto
  pagination : PaginationInfo
deriving DecidableEq, Repr

/-- `RecipeService._convert_to_list_item_dto`
(`src/backend/services/recipe_service.py` lines 377–389). -/
def toListItemDto (r : Recipe) : RecipeListItemDto :=
  { id := r.id, name := r.name,
    preparation_time_minutes := r.preparation_time_minutes,
    complexity_level := r.complexity_level, author_id := r.author_id,
    average_rating := r.average_rating, total_votes := r.total_votes,
    created_at := r.created_at, updated_at := r.updated_at }

/-- Comparison on the column selected by `RecipeService._get_sort_column`
(`src/backend/services/recipe_service.py` lines 367–375); the
`sort_mapping.get` default sends a missing field to `created_at`. -/
def sortKeyLE (f : Option SortField) (a b : Recipe) : Prop :=
  match f with
  | some .name => a.name ≤ b.name
  | some .rating => a.average_rating ≤ b.average_rating
  | some .prep_time => a.preparation_time_minutes ≤ b.preparation_time_minutes
  | some .created_at => a.created_at ≤ b.created_at
  | none => a.created_at ≤ b.created_at

instance (f : Option SortField) : DecidableRel (sortKeyLE f) := fun a b => by
  cases f with
  | none => exact inferInstanceAs (Decidable (_ ≤ _))
  | some s => cases s <;> exact inferInstanceAs (Decidable (_ ≤ _))

/-- `RecipeService.get_recipes_list`
(`src/backend/services/recipe_service.py` lines 29–71): filter, sort,
count, paginate.  `total_pages = (total_count + limit - 1) // limit`. -/
def getRecipesList (db : DB) (q : RecipeListQuery) : RecipeListResponse :=
  let filtered1 : List Recipe := match q.complexity with
    | some c => db.recipes.filter (fun r => r.complexity_level == c)
    | none => db.recipes
  let filtered : List Recipe := match q.authorId with
    | some a => filtered1.filter (fun r => r.author_id == a)
    | none => filtered1
  let sorted := if q.sortOrder = some .desc then
      filtered.insertionSort (fun a b => sortKeyLE q.sortBy b a)
    else
      filtered.insertionSort (sortKeyLE q.sortBy)
  let total_count := sorted.length
  let offset := (q.page - 1) * q.limit
  let recipes := (sorted.drop offset).take q.limit
  let total_pages := (total_count + q.limit - 1) / q.limit
  { data := recipes.map toListItemDto,
    pagination := { page := q.page, limit := q.limit,
                    total_items := total_count, total_pages := total_pages } }

/-- The ranking key of `find_recipes_by_ingredients`
(`src/backend/services/recipe_service.py` lines 98–105): the number of
`recipe_ingredients` rows of the recipe whose ingredient is among the
requested ids — `func.count`, **not** a distinct count. -/
def matchRows (db : DB) (ids : List Nat) (recipe_id : Nat) : Nat :=
  (db.recipe_ingredients.filter
    (fun ri => ri.recipe_id == recipe_id && ids.contains ri.ingredient_id)).length

/-- The spec's "match count": the number of *distinct* requested
ingredient ids the recipe has at least one association row for
(spec §4.2); stated from the spec's words for comparison with the code. -/
def specDistinctMatch (db : DB) (ids : List Nat) (recipe_id : Nat) : Nat :=
  (ids.dedup.filter (fun i =>
    db.recipe_ingredients.any
      (fun ri => ri.recipe_id == recipe_id && ri.ingredient_id == i))).length

/-- Ranking relation of the ranker: match-row count descending. -/
def rankGE (db : DB) (ids : List Nat) (a b : Recipe) : Prop :=
  matchRows db ids b.id ≤ matchRows db ids a.id

instance (db : DB) (ids : List Nat) : DecidableRel (rankGE db ids) :=
  fun _ _ => Nat.decLe _ _

instance (db : DB) (ids : List Nat) : IsTotal Recipe (rankGE db ids) :=
  ⟨fun a b => le_total (matchRows db ids b.id) (matchRows db ids a.id)⟩

instance (db : DB) (ids : List Nat) : IsTrans Recipe (rankGE db ids) :=
  ⟨fun _ _ _ hab hbc => le_trans hbc hab⟩

/-- `RecipeService.find_recipes_by_ingredients`
(`src/backend/services/recipe_service.py` lines 73–127), after the
ingredient-id string has been parsed into a list.  An unknown id makes the
service raise `ValueError` naming the set of invalid ids (modelled as the
deduplicated list in `Except.error`); otherwise candidates (recipes with
at least one matching association row) are ordered by match-row count
descending, capped at 50, and wrapped in a single-page envelope with
`total_pages = 1`. -/
def findRecipesByIngredients (db : DB) (ingredient_ids : List Nat) :
    Except (List Nat) RecipeListResponse :=
  let invalid_ids := (ingredient_ids.filter
    (fun i => !(db.ingredients.any (fun ing => ing.id == i)))).dedup
  if invalid_ids.isEmpty then
    let candidates := db.recipes.filter
      (fun r => matchRows db ingredient_ids r.id != 0)
    let ordered := candidates.insertionSort (rankGE db ingredient_ids)
    let capped := ordered.take 50
    let dtos := capped.map toListItemDto
    .ok { data := dtos,
          pagination := { page := 1, limit := dtos.length,
                          total_items := dtos.length, total_pages := 1 } }
  else
    .error invalid_ids

/-- `GET /recipes/find-by-ingredients` error translation
(`src/backend/routers/recipes.py` lines 290–295): the service's
`ValueError` becomes a single 400 Bad Request response. -/
def findEndpoint (db : DB) (ingredient_ids : List Nat) :
    Except ApiError RecipeListResponse :=
  match findRecipesByIngredients db ingredient_ids with
  | .error _ => .error .badRequest
  | .ok r => .ok r

/-- Pydantic validation of a `sortBy` string against the `SortField` enum
(`src/backend/models/requests.py` line 72): an unrecognised value raises
`ValidationError`, modelled as `none`. -/
def parseSortField (s : String) : Option SortField :=
  if s = "name" then some .name
  else if s = "rating" then some .rating
  else if s = "prep_time" then some .prep_time
  else if s = "created_at" then some .created_at
  else none

/-- Pydantic validation of a `sortOrder` string against `SortOrder`. -/
def parseSortOrder (s : String) : Option SortOrder :=
  if s = "asc" then some .asc
  else if s = "desc" then some .desc
  else none

/-- Pydantic validation of a `complexity` string against `ComplexityLevel`. -/
def parseComplexity (s : String) : Option ComplexityLevel :=
  if s = "easy" then some .easy
  else if s = "medium" then some .medium
  else if s = "hard" then some .hard
  else none

/-- `GET /recipes` (`src/backend/routers/recipes.py` lines 131–170).
FastAPI validates `page`/`limit` bounds (422); the handler then builds a
`RecipeListQuery` from the raw strings inside its `try` block, where a
pydantic `ValidationError` — a subclass of `ValueError` — is caught and
surfaced as 400 Bad Request.  So an unknown `sortBy` value fails the call;
it never reaches `_get_sort_column`'s `created_at` fallback. -/
def getRecipesEndpoint (db : DB) (page limit : Nat)
    (complexity : Option String) (authorId : Option Nat)
    (sortBy : Option String) (sortOrder : Option String) :
    Except ApiError RecipeListResponse :=
  if 1 ≤ page ∧ 1 ≤ limit ∧ limit ≤ 100 then
    let sortByStr := sortBy.getD "created_at"
    let sortOrderStr := sortOrder.getD "desc"
    let complexityParsed : Option (Option ComplexityLevel) :=
      match complexity with
      | none => some none
      | some s => (parseComplexity s).map some
    match parseSortField sortByStr, parseSortOrder sortOrderStr,
        complexityParsed with
    | some sf, some so, some c =>
      .ok (getRecipesList db
        { page := page, limit := limit, complexity := c, authorId := authorId,
          sortBy := some sf, sortOrder := some so })
    | _, _, _ => .error .badRequest
  else
    .error .validation

/-- The `while window and window[0] < window_start: window.popleft()` loop
of `SlidingWindowRateLimiter.is_allowed`
(`src/backend/utils/rate_limiter.py` lines 43–45): timestamps strictly
older than the window start are dropped from the front of the deque. -/
def pruneWindow (start : ℚ) : List ℚ → List ℚ
  | [] => []
  | t :: rest => if t < start then pruneWindow start rest else t :: rest

/-- `SlidingWindowRateLimiter.is_allowed`
(`src/backend/utils/rate_limiter.py` lines 25–79) for one identifier:
prune the deque, reject (recording nothing) when the remaining count has
reached `limit`, otherwise append the current timestamp and admit.
The periodic `_cleanup_old_windows` pass only re-applies the same pruning
to idle identifiers and is semantically absorbed by the per-call prune. -/
def isAllowed (window : List ℚ) (now : ℚ) (limit : Nat) (window_seconds : ℚ) :
    Bool × List ℚ :=
  let pruned := pruneWindow (now - window_seconds) window
  if limit ≤ pruned.length then (false, pruned)
  else (true, pruned ++ [now])

/-- One observed rate-limiter call: its admission result, the call's
timestamp, and the deque contents right after the call. -/
structure StepLog where
  allowed : Bool
  time : ℚ
  window : List ℚ
deriving DecidableEq, Repr

instance : Inhabited StepLog := ⟨⟨false, 0, []⟩⟩

/-- Run a sequence of `is_allowed` calls for one identifier with fixed
`limit` and `window_seconds`, logging every step. -/
def rlTrace (limit : Nat) (window_seconds : ℚ) :
    List ℚ → List ℚ → List StepLog
  | [], _ => []
  | t :: ts, w =>
    let r := isAllowed w t limit window_seconds
    ⟨r.1, t, r.2⟩ :: rlTrace limit window_seconds ts r.2

/-- The admitted timestamps among the first `k` logged calls. -/
def admittedBefore (tr : List StepLog) (k : Nat) : List ℚ :=
  ((tr.take k).filter (fun s => s.allowed)).map (fun s => s.time)

/-- The deque contents seen by the `k`-th call of a trace started at `w`. -/
def windowBefore (w : List ℚ) (tr : List StepLog) (k : Nat) : List ℚ :=
  match k with
  | 0 => w
  | j + 1 => (tr.getD j default).window

/-- Invariant tying the live deque to the full list of admitted
timestamps: the deque is sorted, bounded by the last call time, holds at
most `limit` entries, and filtering by any threshold at least
`bound - window_seconds` gives the same result on the deque and on the
complete admitted history (pruned entries are outside every such window). -/
def WInv (limit : Nat) (window_seconds : ℚ) (admitted w : List ℚ)
    (bound : ℚ) : Prop :=
  w.Pairwise (· ≤ ·) ∧ (∀ x ∈ w, x ≤ bound) ∧ w.length ≤ limit ∧
  ∀ t : ℚ, bound - window_seconds ≤ t →
    w.filter (fun x => decide (t ≤ x)) =
      admitted.filter (fun x => decide (t ≤ x))

/-- A recipe with only its identity and creation time distinguished;
used to build concrete stores. -/
def mkRecipe (i : Nat) : Recipe :=
  { id := i, name := "r", preparation_time_minutes := 10,
    complexity_level := .easy, author_id := 0, average_rating := 0,
    total_votes := 0, created_at := (i : Int), updated_at := (i : Int) }

/-- A store with exactly 21 recipes and nothing else. -/
def db21 : DB :=
  { recipes := (List.range 21).map mkRecipe, recipe_ingredients := [],
    recipe_ratings := [], ingredients := [] }

/-- Ingredients x (id 1) and y (id 2); recipe A (id 10) uses x and y,
recipe B (id 11) uses only x — the spec's ranking scenario. -/
def dbAB : DB :=
  { recipes := [mkRecipe 10, mkRecipe 11],
    recipe_ingredients :=
      [{ id := 0, recipe_id := 10, ingredient_id := 1, amount := 1,
         is_optional := "false" },
       { id := 1, recipe_id := 10, ingredient_id := 2, amount := 1,
         is_optional := "false" },
       { id := 2, recipe_id := 11, ingredient_id := 1, amount := 1,
         is_optional := "false" }],
    recipe_ratings := [],
    ingredients := [{ id := 1, name := "x", unit_type := "g" },
                    { id := 2, name := "y", unit_type := "g" }] }

/-- Ingredients x (id 1) and y (id 2); recipe A (id 10) has **three**
association rows all referencing x, recipe B (id 11) has one row for x
and one for y. -/
def dbDup : DB :=
  { recipes := [mkRecipe 10, mkRecipe 11],
    recipe_ingredients :=
      [{ id := 0, recipe_id := 10, ingredient_id := 1, amount := 1,
         is_optional := "false" },
       { id := 1, recipe_id := 10, ingredient_id := 1, amount := 2,
         is_optional := "false" },
       { id := 2, recipe_id := 10, ingredient_id := 1, amount := 3,
         is_optional := "false" },
       { id := 3, recipe_id := 11, ingredient_id := 1, amount := 1,
         is_optional := "false" },
       { id := 4, recipe_id := 11, ingredient_id := 2, amount := 1,
         is_optional := "false" }],
    recipe_ratings := [],
    ingredients := [{ id := 1, name := "x", unit_type := "g" },
                    { id := 2, name := "y", unit_type := "g" }] }

/-- A store with one ingredient and no recipes at all. -/
def dbEmpty : DB :=
  { recipes := [], recipe_ingredients := [], recipe_ratings := [],
    ingredients := [{ id := 1, name := "x", unit_type := "g" }] }

/-- The response of `find_recipes_by_ingredients` on `dbAB` for `[1, 2]`. -/
def respAB : RecipeListResponse :=
  { data := [toListItemDto (mkRecipe 10), toListItemDto (mkRecipe 11)],
    pagination := { page := 1, limit := 2, total_items := 2,
                    total_pages := 1 } }

/-- A duplicate association row for recipe 10 and ingredient 1 of `dbAB`. -/
def dupRow : RecipeIngredient :=
  { id := 99, recipe_id := 10, ingredient_id := 1, amount := 1,
    is_optional := "false" }

/-- The store `dbW` after user 7 rates recipe 1 with 5. -/
def dbW2 : DB :=
  { recipes := [{ id := 1, name := "r", preparation_time_minutes := 10,
                  complexity_level := .easy, author_id := 2,
                  average_rating := 5, total_votes := 1,
                  created_at := 0, updated_at := 0 }],
    recipe_ingredients := [],
    recipe_ratings := [{ id := 0, user_id := 7, recipe_id := 1, rating := 5 }],
    ingredients := [{ id := 1, name := "x", unit_type := "g" }] }

/-- The mean over an appended row, written the way `rate_recipe` computes
it from the pre-insert rows. -/
theorem specMean_append_single (l : List RecipeRating) (x : RecipeRating) :
    specMean (l ++ [x]) =
      (((l.map (fun rr => rr.rating)).sum + x.rating : ℤ) : ℚ) /
        ((l.length + 1 : ℕ) : ℚ) := by
  simp only [specMean, List.map_append, List.sum_append, List.length_append,
    List.map_cons, List.map_nil, List.sum_cons, List.sum_nil,
    List.length_cons, List.length_nil]
  push_cast
  simp only [List.map_map, Function.comp_def]
  ring_nf

/-- Appending a rating row for the recipe extends that recipe's row set. -/
theorem ratingsFor_insert (db : DB) (recipes2 : List Recipe)
    (x : RecipeRating) (rid : Nat) (hx : x.recipe_id = rid) :
    ratingsFor
      { recipes := recipes2, recipe_ingredients := db.recipe_ingredients,
        recipe_ratings := db.recipe_ratings ++ [x],
        ingredients := db.ingredients } rid = ratingsFor db rid ++ [x] := by
  simp [ratingsFor, List.filter_append, hx]

/-- C1: on every successful `Rate` call the stored and returned
`average_rating` is the arithmetic mean of all persisted `RecipeRating`
rows of the recipe — the new one included — rounded to two decimal
places, and the stored and returned `total_votes` is the count of those
rows. -/
theorem rateRecipe_success_recomputes_mean (db : DB) (rid : Nat)
    (rating : Int) (uid : Nat) (resp : RatingUpdateResponse) (db2 : DB)
    (h : rateRecipe db rid rating uid = (.success resp, db2)) :
    resp.average_rating = round2 (specMean (ratingsFor db2 rid)) ∧
    resp.total_votes = (ratingsFor db2 rid).length ∧
    ∀ r ∈ db2.recipes, r.id = rid →
      r.average_rating = resp.average_rating ∧
      r.total_votes = resp.total_votes := by
  unfold rateRecipe at h
  cases hf : db.recipes.find? (fun r => r.id == rid) with
  | none => rw [hf] at h; exact absurd h (by simp)
  | some rec =>
    rw [hf] at h
    by_cases hex : db.recipe_ratings.any
        (fun rr => rr.recipe_id == rid && rr.user_id == uid)
    · rw [if_pos hex] at h; exact absurd h (by simp)
    · rw [if_neg hex] at h
      simp only [Prod.mk.injEq, RateOutcome.success.injEq] at h
      obtain ⟨hresp, hdb⟩ := h
      subst hresp hdb
      refine ⟨?_, ?_, ?_⟩
      · rw [ratingsFor_insert db _ _ rid rfl, specMean_append_single]
        rfl
      · rw [ratingsFor_insert db _ _ rid rfl]
        simp [ratingsFor]
      · intro r hr hid
        rcases List.mem_map.1 hr with ⟨r0, _, rfl⟩
        by_cases h0 : (r0.id == rid) = true
        · simp [h0]
        · rw [if_neg h0] at hid
          exact absurd hid (by simpa using h0)

/-- C1 witness: user 7 rates the fresh recipe 1 of `dbW` with 5. -/
theorem rateRecipe_success_recomputes_mean_witness :
    (RatingUpdateResponse.mk 5 1).average_rating =
      round2 (specMean (ratingsFor dbW2 1)) ∧
    (RatingUpdateResponse.mk 5 1).total_votes = (ratingsFor dbW2 1).length ∧
    ∀ r ∈ dbW2.recipes, r.id = 1 →
      r.average_rating = (RatingUpdateResponse.mk 5 1).average_rating ∧
      r.total_votes = (RatingUpdateResponse.mk 5 1).total_votes :=
  rateRecipe_success_recomputes_mean dbW 1 5 7 ⟨5, 1⟩ dbW2 (by
    unfold rateRecipe dbW dbW2
    norm_num [List.find?, List.filter, round2, round_eq])

/-- C3: `Rate` fails `NotFound` exactly when the recipe id matches no
recipe, fails `Conflict` exactly when a rating row for the
`(recipe, user)` pair already exists (under referential integrity of the
ratings table), and every failed call leaves the store unchanged. -/
theorem rateRecipe_error_paths (db : DB) (rid : Nat) (rating : Int)
    (uid : Nat)
    (hFK : ∀ rr ∈ db.recipe_ratings, ∃ r ∈ db.recipes, r.id = rr.recipe_id) :
    ((rateRecipe db rid rating uid).1 = .notFound ↔
      ∀ r ∈ db.recipes, r.id ≠ rid) ∧
    ((rateRecipe db rid rating uid).1 = .conflict ↔
      ∃ rr ∈ db.recipe_ratings, rr.recipe_id = rid ∧ rr.user_id = uid) ∧
    (((rateRecipe db rid rating uid).1 = .notFound ∨
        (rateRecipe db rid rating uid).1 = .conflict) →
      (rateRecipe db rid rating uid).2 = db) := by
  unfold rateRecipe
  cases hf : db.recipes.find? (fun r => r.id == rid) with
  | none =>
    have hnone : ∀ r ∈ db.recipes, r.id ≠ rid := by
      intro r hr
      have := List.find?_eq_none.1 hf r hr
      simpa using this
    refine ⟨by simpa using hnone, ?_, by intro _; rfl⟩
    simp only [show (RateOutcome.notFound = RateOutcome.conflict) ↔ False by
      simp, false_iff]
    rintro ⟨rr, hrr, hrec, _⟩
    obtain ⟨r, hr, hrid⟩ := hFK rr hrr
    exact hnone r hr (hrid.trans hrec)
  | some rec =>
    have hrecmem : rec ∈ db.recipes := List.mem_of_find?_eq_some hf
    have hrecid : rec.id = rid := by
      have := List.find?_some hf
      simpa using this
    by_cases hex : db.recipe_ratings.any
        (fun rr => rr.recipe_id == rid && rr.user_id == uid)
    · rw [if_pos hex]
      refine ⟨?_, ?_, by intro _; rfl⟩
      · simp only [show (RateOutcome.conflict = RateOutcome.notFound) ↔ False by
          simp, false_iff]
        intro hall
        exact hall rec hrecmem hrecid
      · simp only [show (RateOutcome.conflict = RateOutcome.conflict) ↔ True by
          simp, true_iff]
        obtain ⟨rr, hrr, hp⟩ := List.any_eq_true.1 hex
        exact ⟨rr, hrr, by simpa using hp⟩
    · rw [if_neg hex]
      refine ⟨?_, ?_, ?_⟩
      · simp only [show (RateOutcome.success _ = RateOutcome.notFound) ↔ False by
          simp, false_iff]
        intro hall
        exact hall rec hrecmem hrecid
      · simp only [show (RateOutcome.success _ = RateOutcome.conflict) ↔ False by
          simp, false_iff]
        rintro ⟨rr, hrr, hrec2, huid⟩
        exact hex (List.any_eq_true.2 ⟨rr, hrr, by simp [hrec2, huid]⟩)
      · rintro (hbad | hbad) <;> simp at hbad

/-- C3 witness: in `dbW2` user 7 already rated recipe 1, so a second
attempt is a `Conflict` and the store is untouched. -/
theorem rateRecipe_error_paths_witness :
    ((rateRecipe dbW2 1 3 7).1 = .notFound ↔
      ∀ r ∈ dbW2.recipes, r.id ≠ 1) ∧
    ((rateRecipe dbW2 1 3 7).1 = .conflict ↔
      ∃ rr ∈ dbW2.recipe_ratings, rr.recipe_id = 1 ∧ rr.user_id = 7) ∧
    (((rateRecipe dbW2 1 3 7).1 = .notFound ∨
        (rateRecipe dbW2 1 3 7).1 = .conflict) →
      (rateRecipe dbW2 1 3 7).2 = dbW2) :=
  rateRecipe_error_paths dbW2 1 3 7 (by decide)

/-- C9: a rating outside `[1, 5]` is rejected by request validation
before the handler runs — the response is the validation error, the store
is untouched, and the outcome does not depend on the store at all (no
recipe or rating lookup happens); at the boundaries 0 and 6 are rejected
while 1 and 5 pass validation. -/
theorem rateEndpoint_validation_bounds :
    (∀ (db dbAlt : DB) (rid uid : Nat) (rating : Int),
        (rating < 1 ∨ 5 < rating) →
        (rateEndpoint db rid rating uid).1 = .error .validation ∧
        (rateEndpoint db rid rating uid).2 = db ∧
        (rateEndpoint db rid rating uid).1 =
          (rateEndpoint dbAlt rid rating uid).1) ∧
    validRating 0 = false ∧ validRating 6 = false ∧
    validRating 1 = true ∧ validRating 5 = true := by
  refine ⟨?_, by decide, by decide, by decide, by decide⟩
  intro db dbAlt rid uid rating hr
  have hv : validRating rating = false := by
    simp only [validRating, Bool.and_eq_false_iff, decide_eq_false_iff_not,
      not_le]
    omega
  unfold rateEndpoint
  rw [hv]
  simp

/-- C9 witness: rating 0 against `dbW` is rejected as a validation
failure regardless of store contents. -/
theorem rateEndpoint_validation_bounds_witness :
    (rateEndpoint dbW 1 0 7).1 = .error .validation ∧
    (rateEndpoint dbW 1 0 7).2 = dbW ∧
    (rateEndpoint dbW 1 0 7).1 = (rateEndpoint dbW2 1 0 7).1 :=
  rateEndpoint_validation_bounds.1 dbW dbW2 1 7 0 (by decide)

/-- Integer ceiling division, as the source computes it with
`(total + limit - 1) // limit`. -/
theorem pages_eq_ceil (t l : Nat) (hl : 1 ≤ l) :
    (t + l - 1) / l = ⌈(t : ℚ) / (l : ℚ)⌉₊ := by
  rcases Nat.eq_zero_or_pos t with ht | ht
  · subst ht
    have h1 : (l - 1) / l = 0 := Nat.div_eq_of_lt (by omega)
    simp [h1]
  · have hl0 : (0 : ℚ) < (l : ℚ) := by exact_mod_cast hl
    obtain ⟨d, hd⟩ : ∃ d, (t + l - 1) / l = d := ⟨_, rfl⟩
    rw [hd]
    have key := Nat.div_add_mod (t + l - 1) l
    rw [hd, Nat.mul_comm] at key
    have hmlt : (t + l - 1) % l < l := Nat.mod_lt _ (by omega)
    have hub : t ≤ d * l := by omega
    have hsub : (d - 1) * l = d * l - l := by rw [Nat.sub_mul, one_mul]
    have hlb : (d - 1) * l < t := by rw [hsub]; omega
    have hne : d ≠ 0 := by
      rcases Nat.eq_zero_or_pos d with h0 | h0
      · rw [h0] at hub; omega
      · omega
    rw [eq_comm, Nat.ceil_eq_iff hne]
    constructor
    · rw [lt_div_iff₀ hl0]
      exact_mod_cast hlb
    · rw [div_le_iff₀ hl0]
      exact_mod_cast hub

/-- C7: `List` reports `total_pages = ceil(total_items / limit)` — zero
when there are no items — and over exactly 21 recipes the call with
`page = 3`, `limit = 10` returns one item and `total_pages = 3`. -/
theorem getRecipesList_total_pages (db : DB) (q : RecipeListQuery)
    (hl : 1 ≤ q.limit) :
    (getRecipesList db q).pagination.total_pages =
      ⌈((getRecipesList db q).pagination.total_items : ℚ) /
        (q.limit : ℚ)⌉₊ ∧
    ((getRecipesList db q).pagination.total_items = 0 →
      (getRecipesList db q).pagination.total_pages = 0) ∧
    (getRecipesList db21
      ⟨3, 10, none, none, some .created_at, some .desc⟩).data.length = 1 ∧
    (getRecipesList db21
      ⟨3, 10, none, none, some .created_at,
        some .desc⟩).pagination.total_pages = 3 := by
  refine ⟨?_, ?_, ?_, ?_⟩
  · simp only [getRecipesList]
    exact pages_eq_ceil _ _ hl
  · simp only [getRecipesList]
    intro h0
    rw [h0]
    exact Nat.div_eq_of_lt (by omega)
  · simp only [getRecipesList, List.length_map, List.length_take,
      List.length_drop, apply_ite List.length, List.length_insertionSort,
      ite_self, db21, List.length_range]
    try norm_num
  · simp only [getRecipesList, apply_ite List.length,
      List.length_insertionSort, ite_self, db21, List.length_map,
      List.length_range]
    try norm_num

/-- C7 witness: the general part applied to the one-recipe store with
`page = 1`, `limit = 10`. -/
theorem getRecipesList_total_pages_witness :
    (getRecipesList dbW ⟨1, 10, none, none, none, none⟩).pagination.total_pages =
      ⌈((getRecipesList dbW
          ⟨1, 10, none, none, none, none⟩).pagination.total_items : ℚ) /
        ((10 : Nat) : ℚ)⌉₊ ∧
    ((getRecipesList dbW ⟨1, 10, none, none, none, none⟩).pagination.total_items = 0 →
      (getRecipesList dbW ⟨1, 10, none, none, none, none⟩).pagination.total_pages = 0) ∧
    (getRecipesList db21
      ⟨3, 10, none, none, some .created_at, some .desc⟩).data.length = 1 ∧
    (getRecipesList db21
      ⟨3, 10, none, none, some .created_at,
        some .desc⟩).pagination.total_pages = 3 :=
  getRecipesList_total_pages dbW ⟨1, 10, none, none, none, none⟩ (by decide)

/-- C4 counterexample: on a store with no recipes, both read paths yield
zero items, yet `List` reports `total_pages = 0` while the ranker-wrapped
listing reports `total_pages = 1` — the two conventions differ. -/
theorem total_pages_empty_mismatch :
    (getRecipesList dbEmpty
      ⟨1, 10, none, none, some .created_at, some .desc⟩).data = [] ∧
    (getRecipesList dbEmpty
      ⟨1, 10, none, none, some .created_at,
        some .desc⟩).pagination.total_pages = 0 ∧
    (findRecipesByIngredients dbEmpty [1]).toOption =
      some { data := [],
             pagination := { page := 1, limit := 0, total_items := 0,
                             total_pages := 1 } } := by
  decide

/-- C4 amended: the two read paths do **not** share one empty-result
convention — `List` reports `total_pages = 0` whenever `total_items = 0`,
while `FindByIngredients` always reports `total_pages = 1`, including on
an empty result. -/
theorem total_pages_conventions (db : DB) (q : RecipeListQuery)
    (hl : 1 ≤ q.limit) :
    ((getRecipesList db q).pagination.total_items = 0 →
      (getRecipesList db q).pagination.total_pages = 0) ∧
    ∀ (ids : List Nat) (resp : RecipeListResponse),
      findRecipesByIngredients db ids = .ok resp →
        resp.pagination.total_pages = 1 := by
  constructor
  · simp only [getRecipesList]
    intro h0
    rw [h0]
    exact Nat.div_eq_of_lt (by omega)
  · intro ids resp h
    unfold findRecipesByIngredients at h
    by_cases hinv : ((ids.filter
        (fun i => !(db.ingredients.any (fun ing => ing.id == i)))).dedup).isEmpty
    · rw [if_pos hinv] at h
      cases h
      rfl
    · rw [if_neg hinv] at h
      cases h

/-- C4 amended witness: the empty store exhibits both conventions. -/
theorem total_pages_conventions_witness :
    ((getRecipesList dbEmpty
        ⟨1, 10, none, none, some .created_at,
          some .desc⟩).pagination.total_items = 0 →
      (getRecipesList dbEmpty
        ⟨1, 10, none, none, some .created_at,
          some .desc⟩).pagination.total_pages = 0) ∧
    ∀ (ids : List Nat) (resp : RecipeListResponse),
      findRecipesByIngredients dbEmpty ids = .ok resp →
        resp.pagination.total_pages = 1 :=
  total_pages_conventions dbEmpty
    ⟨1, 10, none, none, some .created_at, some .desc⟩ (by decide)

/-- C5 counterexample: a `List` request with the unknown sort field
`popularity` does **not** succeed — the pydantic enum validation raises
inside the router's `try` block and the call fails with 400 Bad Request,
instead of falling back to `created_at` descending. -/
theorem unknown_sortBy_is_rejected :
    getRecipesEndpoint dbEmpty 1 10 none none (some "popularity")
      (some "desc") = .error .badRequest := by
  decide

/-- C5 amended: a `List` request whose `sortBy` value is not one of
`name`, `rating`, `prep_time`, `created_at` fails with Bad Request (the
request-model validation rejects it before the service runs); the
`_get_sort_column` fallback to `created_at` only applies to an absent
(`None`) sort field at the service layer. -/
theorem unknown_sortBy_bad_request (db : DB) (page limit : Nat)
    (authorId : Option Nat) (so : Option String) (s : String)
    (hp : 1 ≤ page) (hl1 : 1 ≤ limit) (hl2 : limit ≤ 100)
    (hs : parseSortField s = none) :
    getRecipesEndpoint db page limit none authorId (some s) so =
      .error .badRequest ∧
    ∀ a b : Recipe, sortKeyLE none a b ↔ a.created_at ≤ b.created_at := by
  refine ⟨?_, fun a b => Iff.rfl⟩
  simp only [getRecipesEndpoint]
  rw [if_pos ⟨hp, hl1, hl2⟩]
  simp only [Option.getD_some]
  rw [hs]

/-- C5 amended witness: `sortBy = bogus` with valid paging fails with
Bad Request. -/
theorem unknown_sortBy_bad_request_witness :
    getRecipesEndpoint dbW 1 10 none none (some "bogus") none =
      .error .badRequest ∧
    ∀ a b : Recipe, sortKeyLE none a b ↔ a.created_at ≤ b.created_at :=
  unknown_sortBy_bad_request dbW 1 10 none none "bogus" (by decide)
    (by decide) (by decide) (by decide)

/-- C6: `FindByIngredients` fails exactly when some requested id matches
no ingredient; the single error names exactly the unknown ids of the
request (and nothing else), no result items are produced, and the router
surfaces it as one Bad Request. -/
theorem find_unknown_ingredient_ids (db : DB) (ids : List Nat) :
    ((∃ i ∈ ids, ∀ ing ∈ db.ingredients, ing.id ≠ i) ↔
      ∃ l, findRecipesByIngredients db ids = .error l) ∧
    (∀ l, findRecipesByIngredients db ids = .error l →
      ∀ i : Nat, i ∈ l ↔ (i ∈ ids ∧ ∀ ing ∈ db.ingredients, ing.id ≠ i)) ∧
    (∀ l, findRecipesByIngredients db ids = .error l →
      findEndpoint db ids = .error .badRequest) := by
  have hmem : ∀ i : Nat,
      i ∈ (ids.filter
        (fun j => !(db.ingredients.any (fun ing => ing.id == j)))).dedup ↔
      (i ∈ ids ∧ ∀ ing ∈ db.ingredients, ing.id ≠ i) := by
    intro i
    simp [List.mem_dedup, List.mem_filter, List.any_eq_true]
  by_cases hinv : ((ids.filter
      (fun j => !(db.ingredients.any (fun ing => ing.id == j)))).dedup).isEmpty
  · have herr_none : ∀ l, findRecipesByIngredients db ids ≠ .error l := by
      intro l hl
      unfold findRecipesByIngredients at hl
      rw [if_pos hinv] at hl
      cases hl
    have hnil := List.isEmpty_iff.1 hinv
    refine ⟨?_, ?_, ?_⟩
    · apply iff_of_false
      · rintro ⟨i, hi, hunk⟩
        have : i ∈ (ids.filter
            (fun j => !(db.ingredients.any (fun ing => ing.id == j)))).dedup :=
          (hmem i).2 ⟨hi, hunk⟩
        rw [hnil] at this
        cases this
      · rintro ⟨l, hl⟩
        exact herr_none l hl
    · intro l hl
      exact absurd hl (herr_none l)
    · intro l hl
      exact absurd hl (herr_none l)
  · have herr : findRecipesByIngredients db ids =
        .error ((ids.filter
          (fun j => !(db.ingredients.any (fun ing => ing.id == j)))).dedup) := by
      unfold findRecipesByIngredients
      rw [if_neg hinv]
    have hne : ∃ i ∈ ids, ∀ ing ∈ db.ingredients, ing.id ≠ i := by
      simpa using hinv
    refine ⟨?_, ?_, ?_⟩
    · exact ⟨fun _ => ⟨_, herr⟩, fun _ => hne⟩
    · intro l hl i
      rw [herr] at hl
      cases hl
      exact hmem i
    · intro l hl
      unfold findEndpoint
      rw [herr]

/-- C6 witness: on `dbAB` the request `[1, 7, 7, 2, 8]` (ids 7 and 8
unknown) fails with one error naming exactly 7 and 8. -/
theorem find_unknown_ingredient_ids_witness :
    ((∃ i ∈ [1, 7, 7, 2, 8], ∀ ing ∈ dbAB.ingredients, ing.id ≠ i) ↔
      ∃ l, findRecipesByIngredients dbAB [1, 7, 7, 2, 8] = .error l) ∧
    (∀ l, findRecipesByIngredients dbAB [1, 7, 7, 2, 8] = .error l →
      ∀ i : Nat, i ∈ l ↔
        (i ∈ [1, 7, 7, 2, 8] ∧ ∀ ing ∈ dbAB.ingredients, ing.id ≠ i)) ∧
    (∀ l, findRecipesByIngredients dbAB [1, 7, 7, 2, 8] = .error l →
      findEndpoint dbAB [1, 7, 7, 2, 8] = .error .badRequest) :=
  find_unknown_ingredient_ids dbAB [1, 7, 7, 2, 8]

/-- C8: the ranker's result list is ordered by the ranking match count,
descending — every earlier item's count is at least every later item's —
and on the spec's scenario (recipe A uses x and y, recipe B uses x,
query {x, y}) A is ranked strictly before B. -/
theorem findRecipes_ordered_by_match_count :
    (∀ (db : DB) (ids : List Nat) (resp : RecipeListResponse),
      findRecipesByIngredients db ids = .ok resp →
      resp.data.Pairwise
        (fun a b => matchRows db ids b.id ≤ matchRows db ids a.id)) ∧
    (findRecipesByIngredients dbAB [1, 2]).toOption.map
      (fun r => r.data.map (fun d => d.id)) = some [10, 11] ∧
    matchRows dbAB [1, 2] 10 = 2 ∧ matchRows dbAB [1, 2] 11 = 1 := by
  refine ⟨?_, by decide, by decide, by decide⟩
  intro db ids resp h
  unfold findRecipesByIngredients at h
  by_cases hinv : ((ids.filter
      (fun j => !(db.ingredients.any (fun ing => ing.id == j)))).dedup).isEmpty
  · rw [if_pos hinv] at h
    cases h
    have hsorted : (List.insertionSort (rankGE db ids)
        (db.recipes.filter (fun r => matchRows db ids r.id != 0))).Sorted
          (rankGE db ids) :=
      List.sorted_insertionSort (rankGE db ids) _
    have htake : ((List.insertionSort (rankGE db ids)
        (db.recipes.filter (fun r => matchRows db ids r.id != 0))).take
          50).Pairwise (rankGE db ids) :=
      hsorted.sublist (List.take_sublist _ _)
    exact (List.pairwise_map).2 htake
  · rw [if_neg hinv] at h
    cases h

/-- C8 witness: the scenario response of `dbAB` is sorted by the ranking
count. -/
theorem findRecipes_ordered_by_match_count_witness :
    respAB.data.Pairwise
      (fun a b => matchRows dbAB [1, 2] b.id ≤ matchRows dbAB [1, 2] a.id) :=
  findRecipes_ordered_by_match_count.1 dbAB [1, 2] respAB (by decide)

/-- C2 counterexample: in `dbDup`, recipe 10 has three association rows
all for ingredient x while recipe 11 has one row each for x and y; on the
query {x, y} the ranking count of recipe 10 is 3 — not its distinct count
1 — and the duplicates lift it above recipe 11 whose distinct count is
larger. -/
theorem match_count_counts_rows_not_distinct :
    (findRecipesByIngredients dbDup [1, 2]).toOption.map
      (fun r => r.data.map (fun d => d.id)) = some [10, 11] ∧
    matchRows dbDup [1, 2] 10 = 3 ∧ specDistinctMatch dbDup [1, 2] 10 = 1 ∧
    matchRows dbDup [1, 2] 11 = 2 ∧
    specDistinctMatch dbDup [1, 2] 11 = 2 := by
  decide

/-- C2 amended: the ranking match count is the number of association rows
whose ingredient is among the requested ids: a duplicate row for an
already-matched requested ingredient raises the recipe's ranking count by
one while leaving its distinct match count unchanged. -/
theorem matchRows_duplicate_row (db : DB) (ids : List Nat)
    (x : RecipeIngredient) (hmem : x.ingredient_id ∈ ids)
    (hdup : ∃ x0 ∈ db.recipe_ingredients,
      x0.recipe_id = x.recipe_id ∧ x0.ingredient_id = x.ingredient_id) :
    matchRows { db with recipe_ingredients := db.recipe_ingredients ++ [x] }
        ids x.recipe_id = matchRows db ids x.recipe_id + 1 ∧
    specDistinctMatch
        { db with recipe_ingredients := db.recipe_ingredients ++ [x] }
        ids x.recipe_id = specDistinctMatch db ids x.recipe_id := by
  constructor
  · simp [matchRows, List.filter_append, hmem]
  · unfold specDistinctMatch
    congr 1
    apply List.filter_congr
    intro i _
    simp only [List.any_append, List.any_cons, List.any_nil,
      Bool.or_false, beq_self_eq_true, Bool.true_and]
    by_cases hix : x.ingredient_id = i
    · obtain ⟨x0, hx0, hr, hii⟩ := hdup
      have hany : db.recipe_ingredients.any
          (fun ri => ri.recipe_id == x.recipe_id && ri.ingredient_id == i) =
            true :=
        List.any_eq_true.2 ⟨x0, hx0, by simp [hr, hii, hix]⟩
      simp [hany, hix]
    · have : (x.ingredient_id == i) = false := by
        simpa using hix
      simp [this]

/-- C2 amended witness: adding `dupRow` (a second x-row for recipe 10) to
`dbAB` raises recipe 10's ranking count from 2 to 3 and keeps its
distinct count at 2. -/
theorem matchRows_duplicate_row_witness :
    matchRows
        { dbAB with recipe_ingredients := dbAB.recipe_ingredients ++ [dupRow] }
        [1, 2] dupRow.recipe_id = matchRows dbAB [1, 2] dupRow.recipe_id + 1 ∧
    specDistinctMatch
        { dbAB with recipe_ingredients := dbAB.recipe_ingredients ++ [dupRow] }
        [1, 2] dupRow.recipe_id = specDistinctMatch dbAB [1, 2] dupRow.recipe_id :=
  matchRows_duplicate_row dbAB [1, 2] dupRow (by decide) (by decide)

/-- On a sorted deque the front-pruning loop removes exactly the
timestamps below the window start. -/
theorem pruneWindow_eq_filter (start : ℚ) (l : List ℚ)
    (h : l.Pairwise (· ≤ ·)) :
    pruneWindow start l = l.filter (fun x => decide (start ≤ x)) := by
  induction l with
  | nil => rfl
  | cons t rest ih =>
    rw [List.pairwise_cons] at h
    obtain ⟨hhead, htail⟩ := h
    by_cases hlt : t < start
    · have hdec : (decide (start ≤ t)) = false := by
        simp [not_le.2 hlt]
      simp only [pruneWindow, if_pos hlt, List.filter_cons, hdec]
      exact ih htail
    · have hst : start ≤ t := not_lt.1 hlt
      have hrest : List.filter (fun x => decide (start ≤ x)) rest = rest :=
        List.filter_eq_self.2 (fun x hx => by
          simp [le_trans hst (hhead x hx)])
      simp only [pruneWindow, if_neg hlt, List.filter_cons]
      simp [hst, hrest]

/-- Pruning never grows the deque. -/
theorem pruneWindow_length_le (start : ℚ) (l : List ℚ) :
    (pruneWindow start l).length ≤ l.length := by
  induction l with
  | nil => simp [pruneWindow]
  | cons t rest ih =>
    simp only [pruneWindow]
    by_cases hlt : t < start
    · rw [if_pos hlt]
      simp only [List.length_cons]
      exact Nat.le_succ_of_le ih
    · rw [if_neg hlt]

/-- One `is_allowed` call from any reachable deque state: the admission
answer counts exactly the previously admitted timestamps inside the
current window, a rejection records nothing, the deque stays within
`limit`, and the reachability invariant is preserved. -/
theorem isAllowed_step (limit : Nat) (ws : ℚ) (admitted w : List ℚ)
    (bound t : ℚ) (hinv : WInv limit ws admitted w bound) (hbt : bound ≤ t) :
    ((isAllowed w t limit ws).1 = true ↔
      (admitted.filter (fun x => decide (t - ws ≤ x))).length < limit) ∧
    ((isAllowed w t limit ws).1 = false →
      (isAllowed w t limit ws).2 =
        w.filter (fun x => decide (t - ws ≤ x))) ∧
    (isAllowed w t limit ws).2.length ≤ limit ∧
    WInv limit ws
      (admitted ++ (if (isAllowed w t limit ws).1 then [t] else []))
      (isAllowed w t limit ws).2 t := by
  obtain ⟨hs, hb, hlen, hfil⟩ := hinv
  have hthr : bound - ws ≤ t - ws := by linarith
  have hprune : pruneWindow (t - ws) w =
      w.filter (fun x => decide (t - ws ≤ x)) :=
    pruneWindow_eq_filter _ _ hs
  have hpfil : pruneWindow (t - ws) w =
      admitted.filter (fun x => decide (t - ws ≤ x)) :=
    hprune.trans (hfil _ hthr)
  have hpsorted : (pruneWindow (t - ws) w).Pairwise (· ≤ ·) := by
    rw [hprune]
    exact hs.sublist (List.filter_sublist _)
  have hpmem : ∀ x ∈ pruneWindow (t - ws) w, x ≤ bound := by
    intro x hx
    rw [hprune] at hx
    exact hb x (List.mem_filter.1 hx).1
  have hkey : ∀ t2 : ℚ, t - ws ≤ t2 →
      (pruneWindow (t - ws) w).filter (fun x => decide (t2 ≤ x)) =
        admitted.filter (fun x => decide (t2 ≤ x)) := by
    intro t2 ht2
    rw [hprune, List.filter_filter]
    have hpt : ∀ x ∈ w,
        (decide (t2 ≤ x) && decide (t - ws ≤ x)) = decide (t2 ≤ x) := by
      intro x _
      by_cases hx : t2 ≤ x
      · simp [hx, le_trans ht2 hx]
      · simp [hx]
    rw [List.filter_congr hpt]
    exact hfil t2 (le_trans hthr ht2)
  by_cases hcap : limit ≤ (pruneWindow (t - ws) w).length
  · have h1 : isAllowed w t limit ws = (false, pruneWindow (t - ws) w) := by
      unfold isAllowed
      rw [if_pos hcap]
    rw [h1]
    refine ⟨?_, fun _ => hprune, ?_, ?_⟩
    · apply iff_of_false (by simp)
      rw [← hpfil]
      omega
    · exact le_trans (pruneWindow_length_le _ _) hlen
    · refine ⟨hpsorted, ?_, le_trans (pruneWindow_length_le _ _) hlen, ?_⟩
      · intro x hx
        exact le_trans (hpmem x hx) hbt
      · intro t2 ht2
        simpa using hkey t2 ht2
  · have h1 : isAllowed w t limit ws =
        (true, pruneWindow (t - ws) w ++ [t]) := by
      unfold isAllowed
      rw [if_neg hcap]
    rw [h1]
    have hcap2 : (pruneWindow (t - ws) w).length < limit := not_le.1 hcap
    refine ⟨?_, ?_, ?_, ?_⟩
    · apply iff_of_true rfl
      rw [← hpfil]
      omega
    · intro h0
      exact absurd h0 (by simp)
    · simp only [List.length_append, List.length_cons, List.length_nil]
      omega
    · refine ⟨?_, ?_, ?_, ?_⟩
      · rw [List.pairwise_append]
        refine ⟨hpsorted, List.pairwise_singleton _ _, ?_⟩
        intro x hx y hy
        rw [List.mem_singleton] at hy
        subst hy
        exact le_trans (hpmem x hx) hbt
      · intro x hx
        rcases List.mem_append.1 hx with hx2 | hx2
        · exact le_trans (hpmem x hx2) hbt
        · rw [List.mem_singleton] at hx2
          exact le_of_eq hx2
      · simp only [List.length_append, List.length_cons, List.length_nil]
        omega
      · intro t2 ht2
        simp only [List.filter_append]
        rw [hkey t2 ht2]
        simp

/-- A trace logs one step per call. -/
theorem rlTrace_length (limit : Nat) (ws : ℚ) (times w : List ℚ) :
    (rlTrace limit ws times w).length = times.length := by
  induction times generalizing w with
  | nil => rfl
  | cons t ts ih => simp [rlTrace, ih]

/-- Splitting the admitted-prefix off a trace's first step. -/
theorem admittedBefore_cons (s : StepLog) (tr : List StepLog) (j : Nat) :
    admittedBefore (s :: tr) (j + 1) =
      (if s.allowed then [s.time] else []) ++ admittedBefore tr j := by
  by_cases hb : s.allowed <;>
    simp [admittedBefore, List.take_succ_cons, List.filter_cons, hb]

/-- Splitting the deque-before view off a trace's first step. -/
theorem windowBefore_cons (w : List ℚ) (s : StepLog) (tr : List StepLog)
    (j : Nat) :
    windowBefore w (s :: tr) (j + 1) = windowBefore s.window tr j := by
  cases j <;> simp [windowBefore]

/-- The per-index trace properties, generalized over any reachable start
state. -/
theorem rlTrace_aux (limit : Nat) (ws : ℚ) (times : List ℚ) :
    ∀ (w admitted : List ℚ) (bound : ℚ),
      List.Chain' (· ≤ ·) (bound :: times) →
      WInv limit ws admitted w bound →
      ∀ k, k < (rlTrace limit ws times w).length →
        (((rlTrace limit ws times w).getD k default).allowed = true ↔
          ((admitted ++ admittedBefore (rlTrace limit ws times w) k).filter
            (fun x => decide
              (((rlTrace limit ws times w).getD k default).time - ws ≤ x))).length
            < limit) ∧
        (((rlTrace limit ws times w).getD k default).allowed = false →
          ((rlTrace limit ws times w).getD k default).window =
            (windowBefore w (rlTrace limit ws times w) k).filter
              (fun x => decide
                (((rlTrace limit ws times w).getD k default).time - ws ≤ x))) ∧
        ((rlTrace limit ws times w).getD k default).window.length ≤ limit := by
  induction times with
  | nil =>
    intro w admitted bound _ _ k hk
    simp [rlTrace] at hk
  | cons t ts ih =>
    intro w admitted bound hchain hinv k hk
    obtain ⟨hbt, hchain2⟩ := List.chain'_cons.1 hchain
    have hstep := isAllowed_step limit ws admitted w bound t hinv hbt
    cases k with
    | zero =>
      simp only [rlTrace, List.getD_cons_zero]
      refine ⟨?_, hstep.2.1, hstep.2.2.1⟩
      have h0 : admittedBefore
          (⟨(isAllowed w t limit ws).1, t, (isAllowed w t limit ws).2⟩ ::
            rlTrace limit ws ts (isAllowed w t limit ws).2) 0 = [] := by
        simp [admittedBefore]
      rw [h0, List.append_nil]
      exact hstep.1
    | succ j =>
      have hk2 : j < (rlTrace limit ws ts (isAllowed w t limit ws).2).length := by
        have := hk
        simp only [rlTrace, List.length_cons] at this
        omega
      have ihres := ih (isAllowed w t limit ws).2
        (admitted ++ (if (isAllowed w t limit ws).1 then [t] else [])) t
        hchain2 hstep.2.2.2 j hk2
      simp only [rlTrace, List.getD_cons_succ]
      rw [admittedBefore_cons, windowBefore_cons]
      simpa [List.append_assoc] using ihres

/-- C10: along any monotonically timed call sequence for one identifier,
`is_allowed` admits a call exactly when fewer than `limit` previously
admitted timestamps lie within the trailing window at the call's time; a
rejected call records nothing (its resulting deque is just the pruned
prior deque); and the deque never holds more than `limit` timestamps. -/
theorem slidingWindow_admission (limit : Nat) (ws : ℚ) (times : List ℚ)
    (hmono : times.Chain' (· ≤ ·)) :
    ∀ k, k < (rlTrace limit ws times []).length →
      (((rlTrace limit ws times []).getD k default).allowed = true ↔
        ((admittedBefore (rlTrace limit ws times []) k).filter
          (fun x => decide
            (((rlTrace limit ws times []).getD k default).time - ws ≤ x))).length
          < limit) ∧
      (((rlTrace limit ws times []).getD k default).allowed = false →
        ((rlTrace limit ws times []).getD k default).window =
          (windowBefore [] (rlTrace limit ws times []) k).filter
            (fun x => decide
              (((rlTrace limit ws times []).getD k default).time - ws ≤ x))) ∧
      ((rlTrace limit ws times []).getD k default).window.length ≤ limit := by
  cases times with
  | nil =>
    intro k hk
    simp [rlTrace] at hk
  | cons t ts =>
    intro k hk
    have hchain : List.Chain' (· ≤ ·) (t :: t :: ts) :=
      List.chain'_cons.2 ⟨le_refl t, hmono⟩
    have hinv : WInv limit ws [] [] t :=
      ⟨List.Pairwise.nil, by simp, by simp, fun _ _ => rfl⟩
    have := rlTrace_aux limit ws (t :: ts) [] [] t hchain hinv k hk
    simpa using this

/-- C10 witness: with `limit = 2` and a 10-second window over call times
0, 1, 2, 20, the third call is rejected — two admitted timestamps are in
its window — nothing is recorded for it, and its deque stays within the
limit. -/
theorem slidingWindow_admission_witness :
    (((rlTrace 2 10 [0, 1, 2, 20] []).getD 2 default).allowed = true ↔
      ((admittedBefore (rlTrace 2 10 [0, 1, 2, 20] []) 2).filter
        (fun x => decide
          (((rlTrace 2 10 [0, 1, 2, 20] []).getD 2 default).time - 10 ≤ x))).length
        < 2) ∧
    ((((rlTrace 2 10 [0, 1, 2, 20] []).getD 2 default).allowed = false →
      ((rlTrace 2 10 [0, 1, 2, 20] []).getD 2 default).window =
        (windowBefore [] (rlTrace 2 10 [0, 1, 2, 20] []) 2).filter
          (fun x => decide
            (((rlTrace 2 10 [0, 1, 2, 20] []).getD 2 default).time - 10 ≤ x)))) ∧
    ((rlTrace 2 10 [0, 1, 2, 20] []).getD 2 default).window.length ≤ 2 :=
  slidingWindow_admission 2 10 [0, 1, 2, 20]
    (by norm_num [List.chain'_cons]) 2
    (by rw [rlTrace_length]; norm_num)

end NaWinie
